import Mathlib

/-!
Verification of the ndvek N-dimensional array engine (Go) against its
natural-language specification.

Shallow embedding conventions:
* Go `int` dimension sizes and flat indices are modelled as `Nat` (the data
  model requires non-negative dimension sizes, and every claim quantifies
  over well-formed shapes and in-range indices).
* `float64` and `float32` element values are both modelled as exact
  rationals (`ℚ`): widening `float32 → float64` is lossless, and the
  vectorized kernels (`vek`, `vek32`) are out of scope per the spec and are
  modelled as exact elementwise maps over contiguous buffers.  The kernels
  require equal-length buffers (they panic otherwise); the claims only
  exercise them on arrays satisfying the length invariant, where
  `List.zipWith`/`List.map` coincide with the kernels.
* A Go function that can return an error or panic is modelled with
  `GoOutcome`: `.ok` for a normal result, `.err` for a returned `error`
  (a local, recoverable condition), `.panic` for a runtime panic such as a
  failed interface type assertion or an out-of-range slice index.
* In-place methods are modelled by explicit state passing: they return the
  outcome together with the new state of the receiver; in every error
  branch the Go code returns before touching the buffer, so the receiver
  state is returned unchanged there.
-/

namespace Ndvek

/-- Outcome of a Go call: a normal result, a returned `error` value, or a
runtime panic. -/
inductive GoOutcome (α : Type) where
  | ok (val : α)
  | err (msg : String)
  | panic (msg : String)
deriving DecidableEq

instance : Monad GoOutcome where
  pure := .ok
  bind
    | .ok a, f => f a
    | .err m, _ => .err m
    | .panic m, _ => .panic m

/-- The `dtype` tag of an array: `Float64 DType = iota; Float32; Bool`. -/
inductive DType where
  | Float64
  | Float32
  | Bool
deriving DecidableEq

/-- The dynamically typed buffer `Data any // []float64, []float32, or []bool`.
Both float widths carry exact rational values (see the header comment). -/
inductive Buf where
  | f64 (xs : List ℚ)
  | f32 (xs : List ℚ)
  | bool (xs : List Bool)
deriving DecidableEq

/-- Length of the underlying Go slice. -/
def Buf.buflen : Buf → Nat
  | .f64 xs => xs.length
  | .f32 xs => xs.length
  | .bool xs => xs.length

/-- `NdArray` stores a shape vector and a tagged flat buffer.  The Go struct
carries a separate `dtype` field that every construction site keeps in sync
with the dynamic type of `Data`; we derive it from the buffer (below). -/
structure NdArray where
  shape : List Nat
  data : Buf
deriving DecidableEq

/-- The `dtype` field, always kept consistent with the buffer variant. -/
def NdArray.dtype (a : NdArray) : DType :=
  match a.data with
  | .f64 _ => .Float64
  | .f32 _ => .Float32
  | .bool _ => .Bool

/-- Error message of `NewNdArray` on a length mismatch. -/
def dataLenMsg : String := "data length does not match shape dimensions"

/-- Go panic message for a failed interface type assertion
(`a.Data.([]float64)` / `a.Data.([]float32)` on a buffer of another type). -/
def typeAssertMsg : String := "interface conversion"

/-- `ProdInt` multiplies the entries of a shape, starting from 1. -/
def ProdInt (x : List Nat) : Nat := x.foldl (· * ·) 1

/-- `NewNdArray` validates that the declared shape's total size matches the
buffer length and otherwise fails (the Go version also rejects unsupported
dynamic types, which our closed `Buf` type rules out). -/
def NewNdArray (shape : List Nat) (data : Buf) : GoOutcome NdArray :=
  if ProdInt shape ≠ data.buflen then .err dataLenMsg
  else .ok ⟨shape, data⟩

/-- `shapesEqual` compares two shape vectors entrywise. -/
def shapesEqual (a b : List Nat) : Bool := a == b

/-- Right-aligned dimension lookup used by `broadcastShapes`: `dimAt s i` is
`s[len-1-i]` (the `i`-th dimension counted from the last), and 1 once `i`
runs past the shape's rank. -/
def dimAt (shape : List Nat) (i : Nat) : Nat :=
  if i < shape.length then shape.getD (shape.length - 1 - i) 1 else 1

/-- The loop condition of `broadcastShapes` that rejects a pair of shapes:
some right-aligned dimension pair has `dim1 != 1 && dim2 != 1 && dim1 != dim2`. -/
def hasIncompatibleDim (shape1 shape2 : List Nat) : Bool :=
  (List.range (max shape1.length shape2.length)).any fun i =>
    dimAt shape1 i ≠ 1 && dimAt shape2 i ≠ 1 && dimAt shape1 i ≠ dimAt shape2 i

/-- Error message of `broadcastShapes`, carrying both input shapes
(`fmt.Errorf("incompatible shapes for broadcasting: %v and %v", ...)`). -/
def incompatMsg (shape1 shape2 : List Nat) : String :=
  "incompatible shapes for broadcasting: " ++ toString shape1 ++ " and " ++ toString shape2

/-- `broadcastShapes` right-aligns the two shapes (missing leading dimensions
count as 1), fails if some aligned pair is unequal with neither side 1, and
otherwise takes the larger dimension at every position
(`if dim1 > dim2 { dim1 } else { dim2 }`, i.e. the max). -/
def broadcastShapes (shape1 shape2 : List Nat) : GoOutcome (List Nat) :=
  let maxLen := max shape1.length shape2.length
  if hasIncompatibleDim shape1 shape2 then .err (incompatMsg shape1 shape2)
  else .ok ((List.range maxLen).map fun j =>
    -- the Go loop writes broadcastedShape[maxLen-1-i]; position j holds i = maxLen-1-j
    max (dimAt shape1 (maxLen - 1 - j)) (dimAt shape2 (maxLen - 1 - j)))

/-- Guard message of `broadcastIndex`. -/
def rankMsg : String := "original shape cannot be larger than broadcast shape"

/-- The loop of `broadcastIndex`, walking the broadcast shape from the last
dimension to the first.  Both shapes are passed reversed (fastest-varying
dimension first); `shapeRev.headD 1` is the right-aligned source dimension
(`1` once the source shape has run out of dimensions).  The accumulators
mirror the Go locals `index`, `originalIndex`, `stride`. -/
def broadcastIndexLoop : List Nat → List Nat → Nat → Nat → Nat → Nat
  | [], _, _, originalIndex, _ => originalIndex
  | broadcastDim :: bsRev, shapeRev, index, originalIndex, stride =>
    let shapeDim := shapeRev.headD 1
    let currentCoord := index % broadcastDim
    let currentCoord := if shapeDim ≠ broadcastDim ∧ shapeDim = 1 then 0 else currentCoord
    broadcastIndexLoop bsRev shapeRev.tail (index / broadcastDim)
      (originalIndex + currentCoord * stride) (stride * shapeDim)

/-- `broadcastIndex` converts a flat index in the broadcast result shape to
the flat offset in the (right-aligned, possibly lower-rank) source shape. -/
def broadcastIndex (shape broadcastShape : List Nat) (index : Nat) : GoOutcome Nat :=
  if shape.length > broadcastShape.length then .err rankMsg
  else .ok (broadcastIndexLoop broadcastShape.reverse shape.reverse index 0 1)

/-- The claim's specification of the index mapping, with both shapes given
reversed (fastest-varying axis first).  At each axis the flat index is
decomposed mixed-radix against the result shape (`i % rDim`, carrying
`i / rDim` to the next axis); the coordinate is pinned to 0 exactly when the
right-aligned source dimension is 1 while the result dimension exceeds 1;
and the pinned coordinates are linearized against the source shape's own
row-major strides, written in Horner form:
`c₀ + s₀·(c₁ + s₁·(c₂ + …)) = Σₖ cₖ · Πⱼ₍ⱼ₌₀…ₖ₋₁₎ sⱼ`. -/
def mapIndexSpecRev : List Nat → List Nat → Nat → Nat
  | [], _, _ => 0
  | rDim :: rRest, sRev, i =>
    let sDim := sRev.headD 1
    let coord := i % rDim
    let pinned := if sDim = 1 ∧ 1 < rDim then 0 else coord
    pinned + sDim * mapIndexSpecRev rRest sRev.tail (i / rDim)

/-- The claim's index-mapping specification on shapes in their natural
(slowest-first) order. -/
def mapIndexSpec (sourceShape resultShape : List Nat) (i : Nat) : Nat :=
  mapIndexSpecRev resultShape.reverse sourceShape.reverse i

/-- Error messages of `Get`. -/
def idxLenMsg : String := "index length does not match array dimensions"

/-- Out-of-bounds coordinate message of `Get`. -/
def oobMsg : String := "index out of bounds"

/-- Go runtime panic message for indexing a slice out of range. -/
def outOfRangeMsg : String := "index out of range"

/-- The offset loop of `Get`: row-major accumulation
`offset = offset*a.shape[i] + coord`, rejecting any coordinate outside its
dimension.  The length mismatch arm is unreachable because `Get` compares
the lengths first. -/
def getOffset : List Nat → List Nat → Nat → GoOutcome Nat
  | [], [], offset => .ok offset
  | coord :: index, dim :: dims, offset =>
    if coord ≥ dim then .err oobMsg
    else getOffset index dims (offset * dim + coord)
  | _, _, _ => .err idxLenMsg

/-- `Get` retrieves the element at a multi-index, widened to `float64`.
On a `Bool` array the trailing `a.Data.([]float32)` type assertion panics. -/
def Get (a : NdArray) (index : List Nat) : GoOutcome ℚ :=
  if index.length ≠ a.shape.length then .err idxLenMsg
  else do
    let offset ← getOffset index a.shape 0
    match a.data with
    | .f64 xs =>
      match xs.get? offset with
      | some v => .ok v
      | none => .panic outOfRangeMsg
    | .f32 xs =>
      match xs.get? offset with
      | some v => .ok v
      | none => .panic outOfRangeMsg
    | .bool _ => .panic typeAssertMsg

/-- `dataAsFloat64` returns the buffer as `[]float64`, widening a `float32`
buffer element-by-element (lossless, so the identity here).  On a `Bool`
buffer the `a.Data.([]float32)` type assertion in its else-branch panics. -/
def dataAsFloat64 (a : NdArray) : GoOutcome (List ℚ) :=
  match a.data with
  | .f64 xs => .ok xs
  | .f32 xs => .ok xs
  | .bool _ => .panic typeAssertMsg

/-- `ApplyOp` applies a binary operation under general broadcasting: derive
the broadcast shape, widen both operands to `float64`, and fill every flat
result position from the operands' mapped offsets.  Inside the loop the Go
code panics if `broadcastIndex` errs; that guard cannot fire because the
broadcast shape has the maximal rank, so the unreachable arm returns a dummy
0.  `getD _ 0` is Go slice indexing, in range for operands satisfying the
length invariant. -/
def ApplyOp (a b : NdArray) (op : ℚ → ℚ → ℚ) : GoOutcome NdArray := do
  let bShape ← broadcastShapes a.shape b.shape
  let sizeOf := ProdInt bShape
  let aData ← dataAsFloat64 a
  let bData ← dataAsFloat64 b
  .ok ⟨bShape, .f64 ((List.range sizeOf).map fun i =>
    match broadcastIndex a.shape bShape i, broadcastIndex b.shape bShape i with
    | .ok aIndex, .ok bIndex => op (aData.getD aIndex 0) (bData.getD bIndex 0)
    | _, _ => 0)⟩

/-- Models `bVal, _ := b.Get([]int{0})`: `Get` returns `(0, err)` in its
error paths and the caller discards the error, so an `.err` outcome turns
into the zero value 0; a panic still propagates. -/
def discardErr (r : GoOutcome ℚ) : GoOutcome ℚ :=
  match r with
  | .ok v => .ok v
  | .err _ => .ok 0
  | .panic m => .panic m

/-- `Add`: equal-shape fast path (same-width kernel for two `Float32`
operands, otherwise widen to `float64`), scalar fast path when one operand
has total size 1 (reading its single element with `Get([]int{0})` and
discarding the error), and the general broadcast path via `ApplyOp`. -/
def Add (a b : NdArray) : GoOutcome NdArray :=
  if shapesEqual a.shape b.shape then
    match a.data, b.data with
    | .f32 xs, .f32 ys => .ok ⟨a.shape, .f32 (List.zipWith (· + ·) xs ys)⟩
    | _, _ => do
      let aData ← dataAsFloat64 a
      let bData ← dataAsFloat64 b
      .ok ⟨a.shape, .f64 (List.zipWith (· + ·) aData bData)⟩
  else if ProdInt b.shape = 1 then do
    let bVal ← discardErr (Get b [0])
    match a.data, b.data with
    | .f32 xs, .f32 _ => .ok ⟨a.shape, .f32 (xs.map (· + bVal))⟩
    | _, _ => do
      let aData ← dataAsFloat64 a
      .ok ⟨a.shape, .f64 (aData.map (· + bVal))⟩
  else if ProdInt a.shape = 1 then do
    let aVal ← discardErr (Get a [0])
    match a.data, b.data with
    | .f32 _, .f32 ys => .ok ⟨b.shape, .f32 (ys.map (· + aVal))⟩
    | _, _ => do
      let bData ← dataAsFloat64 b
      .ok ⟨b.shape, .f64 (bData.map (· + aVal))⟩
  else ApplyOp a b (fun x y => x + y)

/-- `Subtract`, with the same dispatch as `Add`; the size-1 `a` path
computes `-(b - a)` with two kernel calls (`SubNumber`, then
`MulNumber _ (-1)`). -/
def Subtract (a b : NdArray) : GoOutcome NdArray :=
  if shapesEqual a.shape b.shape then
    match a.data, b.data with
    | .f32 xs, .f32 ys => .ok ⟨a.shape, .f32 (List.zipWith (· - ·) xs ys)⟩
    | _, _ => do
      let aData ← dataAsFloat64 a
      let bData ← dataAsFloat64 b
      .ok ⟨a.shape, .f64 (List.zipWith (· - ·) aData bData)⟩
  else if ProdInt b.shape = 1 then do
    let bVal ← discardErr (Get b [0])
    match a.data, b.data with
    | .f32 xs, .f32 _ => .ok ⟨a.shape, .f32 (xs.map (· - bVal))⟩
    | _, _ => do
      let aData ← dataAsFloat64 a
      .ok ⟨a.shape, .f64 (aData.map (· - bVal))⟩
  else if ProdInt a.shape = 1 then do
    let aVal ← discardErr (Get a [0])
    match a.data, b.data with
    | .f32 _, .f32 ys =>
      .ok ⟨b.shape, .f32 ((ys.map (· - aVal)).map (· * (-1)))⟩
    | _, _ => do
      let bData ← dataAsFloat64 b
      .ok ⟨b.shape, .f64 ((bData.map (· - aVal)).map (· * (-1)))⟩
  else ApplyOp a b (fun x y => x - y)

/-- `Multiply`, with the same dispatch as `Add`. -/
def Multiply (a b : NdArray) : GoOutcome NdArray :=
  if shapesEqual a.shape b.shape then
    match a.data, b.data with
    | .f32 xs, .f32 ys => .ok ⟨a.shape, .f32 (List.zipWith (· * ·) xs ys)⟩
    | _, _ => do
      let aData ← dataAsFloat64 a
      let bData ← dataAsFloat64 b
      .ok ⟨a.shape, .f64 (List.zipWith (· * ·) aData bData)⟩
  else if ProdInt b.shape = 1 then do
    let bVal ← discardErr (Get b [0])
    match a.data, b.data with
    | .f32 xs, .f32 _ => .ok ⟨a.shape, .f32 (xs.map (· * bVal))⟩
    | _, _ => do
      let aData ← dataAsFloat64 a
      .ok ⟨a.shape, .f64 (aData.map (· * bVal))⟩
  else if ProdInt a.shape = 1 then do
    let aVal ← discardErr (Get a [0])
    match a.data, b.data with
    | .f32 _, .f32 ys => .ok ⟨b.shape, .f32 (ys.map (· * aVal))⟩
    | _, _ => do
      let bData ← dataAsFloat64 b
      .ok ⟨b.shape, .f64 (bData.map (· * aVal))⟩
  else ApplyOp a b (fun x y => x * y)

/-- `Divide`, with the same dispatch as `Add`; the size-1 `a` path computes
`a * (1/b)` with two kernel calls (`Inv`, then `MulNumber`). -/
def Divide (a b : NdArray) : GoOutcome NdArray :=
  if shapesEqual a.shape b.shape then
    match a.data, b.data with
    | .f32 xs, .f32 ys => .ok ⟨a.shape, .f32 (List.zipWith (· / ·) xs ys)⟩
    | _, _ => do
      let aData ← dataAsFloat64 a
      let bData ← dataAsFloat64 b
      .ok ⟨a.shape, .f64 (List.zipWith (· / ·) aData bData)⟩
  else if ProdInt b.shape = 1 then do
    let bVal ← discardErr (Get b [0])
    match a.data, b.data with
    | .f32 xs, .f32 _ => .ok ⟨a.shape, .f32 (xs.map (· / bVal))⟩
    | _, _ => do
      let aData ← dataAsFloat64 a
      .ok ⟨a.shape, .f64 (aData.map (· / bVal))⟩
  else if ProdInt a.shape = 1 then do
    let aVal ← discardErr (Get a [0])
    match a.data, b.data with
    | .f32 _, .f32 ys =>
      .ok ⟨b.shape, .f32 ((ys.map (fun y => 1 / y)).map (· * aVal))⟩
    | _, _ => do
      let bData ← dataAsFloat64 b
      .ok ⟨b.shape, .f64 ((bData.map (fun y => 1 / y)).map (· * aVal))⟩
  else ApplyOp a b (fun x y => x / y)

/-- Error returned by every comparison/logical binary op on unequal shapes. -/
def bcastBoolMsg : String := "broadcasting not yet supported for boolean ops"

/-- Error returned when a comparison mixes `Bool` with a numeric kind. -/
def boolNumMsg : String := "cannot compare boolean with numeric type"

/-- Error returned when a logical op receives a non-`Bool` operand. -/
def logicalBoolMsg : String := "logical operations require boolean arrays"

/-- `Eq`: element-wise equality; requires exactly equal shapes; same-kind
numeric kernels, a manual loop for two `Bool` operands, widening for mixed
numeric operands, and an error for `Bool` mixed with a numeric kind. -/
def Eq (a b : NdArray) : GoOutcome NdArray :=
  if ¬ shapesEqual a.shape b.shape then .err bcastBoolMsg
  else match a.data, b.data with
    | .f64 xs, .f64 ys => .ok ⟨a.shape, .bool (List.zipWith (fun x y => decide (x = y)) xs ys)⟩
    | .f32 xs, .f32 ys => .ok ⟨a.shape, .bool (List.zipWith (fun x y => decide (x = y)) xs ys)⟩
    | .bool xs, .bool ys => .ok ⟨a.shape, .bool (List.zipWith (fun x y => x == y) xs ys)⟩
    | .f64 xs, .f32 ys => .ok ⟨a.shape, .bool (List.zipWith (fun x y => decide (x = y)) xs ys)⟩
    | .f32 xs, .f64 ys => .ok ⟨a.shape, .bool (List.zipWith (fun x y => decide (x = y)) xs ys)⟩
    | _, _ => .err boolNumMsg

/-- `Neq`: element-wise inequality, with the same dispatch as `Eq`. -/
def Neq (a b : NdArray) : GoOutcome NdArray :=
  if ¬ shapesEqual a.shape b.shape then .err bcastBoolMsg
  else match a.data, b.data with
    | .f64 xs, .f64 ys => .ok ⟨a.shape, .bool (List.zipWith (fun x y => decide (x ≠ y)) xs ys)⟩
    | .f32 xs, .f32 ys => .ok ⟨a.shape, .bool (List.zipWith (fun x y => decide (x ≠ y)) xs ys)⟩
    | .bool xs, .bool ys => .ok ⟨a.shape, .bool (List.zipWith (fun x y => x != y) xs ys)⟩
    | .f64 xs, .f32 ys => .ok ⟨a.shape, .bool (List.zipWith (fun x y => decide (x ≠ y)) xs ys)⟩
    | .f32 xs, .f64 ys => .ok ⟨a.shape, .bool (List.zipWith (fun x y => decide (x ≠ y)) xs ys)⟩
    | _, _ => .err boolNumMsg

/-- `Lt`: element-wise less-than; unlike `Eq`/`Neq` there is no `Bool`
branch, so two `Bool` operands also fall into the type-mismatch error. -/
def Lt (a b : NdArray) : GoOutcome NdArray :=
  if ¬ shapesEqual a.shape b.shape then .err bcastBoolMsg
  else match a.data, b.data with
    | .f64 xs, .f64 ys => .ok ⟨a.shape, .bool (List.zipWith (fun x y => decide (x < y)) xs ys)⟩
    | .f32 xs, .f32 ys => .ok ⟨a.shape, .bool (List.zipWith (fun x y => decide (x < y)) xs ys)⟩
    | .f64 xs, .f32 ys => .ok ⟨a.shape, .bool (List.zipWith (fun x y => decide (x < y)) xs ys)⟩
    | .f32 xs, .f64 ys => .ok ⟨a.shape, .bool (List.zipWith (fun x y => decide (x < y)) xs ys)⟩
    | _, _ => .err boolNumMsg

/-- `Lte`: element-wise less-than-or-equal, dispatched like `Lt`. -/
def Lte (a b : NdArray) : GoOutcome NdArray :=
  if ¬ shapesEqual a.shape b.shape then .err bcastBoolMsg
  else match a.data, b.data with
    | .f64 xs, .f64 ys => .ok ⟨a.shape, .bool (List.zipWith (fun x y => decide (x ≤ y)) xs ys)⟩
    | .f32 xs, .f32 ys => .ok ⟨a.shape, .bool (List.zipWith (fun x y => decide (x ≤ y)) xs ys)⟩
    | .f64 xs, .f32 ys => .ok ⟨a.shape, .bool (List.zipWith (fun x y => decide (x ≤ y)) xs ys)⟩
    | .f32 xs, .f64 ys => .ok ⟨a.shape, .bool (List.zipWith (fun x y => decide (x ≤ y)) xs ys)⟩
    | _, _ => .err boolNumMsg

/-- `Gt`: element-wise greater-than, dispatched like `Lt`. -/
def Gt (a b : NdArray) : GoOutcome NdArray :=
  if ¬ shapesEqual a.shape b.shape then .err bcastBoolMsg
  else match a.data, b.data with
    | .f64 xs, .f64 ys => .ok ⟨a.shape, .bool (List.zipWith (fun x y => decide (y < x)) xs ys)⟩
    | .f32 xs, .f32 ys => .ok ⟨a.shape, .bool (List.zipWith (fun x y => decide (y < x)) xs ys)⟩
    | .f64 xs, .f32 ys => .ok ⟨a.shape, .bool (List.zipWith (fun x y => decide (y < x)) xs ys)⟩
    | .f32 xs, .f64 ys => .ok ⟨a.shape, .bool (List.zipWith (fun x y => decide (y < x)) xs ys)⟩
    | _, _ => .err boolNumMsg

/-- `Gte`: element-wise greater-than-or-equal, dispatched like `Lt`. -/
def Gte (a b : NdArray) : GoOutcome NdArray :=
  if ¬ shapesEqual a.shape b.shape then .err bcastBoolMsg
  else match a.data, b.data with
    | .f64 xs, .f64 ys => .ok ⟨a.shape, .bool (List.zipWith (fun x y => decide (y ≤ x)) xs ys)⟩
    | .f32 xs, .f32 ys => .ok ⟨a.shape, .bool (List.zipWith (fun x y => decide (y ≤ x)) xs ys)⟩
    | .f64 xs, .f32 ys => .ok ⟨a.shape, .bool (List.zipWith (fun x y => decide (y ≤ x)) xs ys)⟩
    | .f32 xs, .f64 ys => .ok ⟨a.shape, .bool (List.zipWith (fun x y => decide (y ≤ x)) xs ys)⟩
    | _, _ => .err boolNumMsg

/-- `And`: element-wise logical AND, requiring equal shapes and two `Bool`
operands. -/
def And (a b : NdArray) : GoOutcome NdArray :=
  if ¬ shapesEqual a.shape b.shape then .err bcastBoolMsg
  else match a.data, b.data with
    | .bool xs, .bool ys => .ok ⟨a.shape, .bool (List.zipWith (fun x y => x && y) xs ys)⟩
    | _, _ => .err logicalBoolMsg

/-- `Or`: element-wise logical OR, dispatched like `And`. -/
def Or (a b : NdArray) : GoOutcome NdArray :=
  if ¬ shapesEqual a.shape b.shape then .err bcastBoolMsg
  else match a.data, b.data with
    | .bool xs, .bool ys => .ok ⟨a.shape, .bool (List.zipWith (fun x y => x || y) xs ys)⟩
    | _, _ => .err logicalBoolMsg

/-- `Xor`: element-wise logical XOR, dispatched like `And`. -/
def Xor (a b : NdArray) : GoOutcome NdArray :=
  if ¬ shapesEqual a.shape b.shape then .err bcastBoolMsg
  else match a.data, b.data with
    | .bool xs, .bool ys => .ok ⟨a.shape, .bool (List.zipWith (fun x y => Bool.xor x y) xs ys)⟩
    | _, _ => .err logicalBoolMsg

/-- Error of every binary in-place operation given unequal shapes. -/
def inplaceShapeMsg : String := "shapes must be equal for in-place operation"

/-- Error of an in-place operation on a `Float32` receiver with a `Float64`
operand. -/
def inplaceDtypeMsg : String := "cannot operate on Float32 with Float64 in-place"

/-- `Add_Inplace` (`a += b`), as a state transformer returning the outcome
together with the new state of the receiver.  Every error arm returns before
the kernel runs, leaving the receiver unchanged.  A `Float64` receiver takes
the else-branch, which widens the operand with `b.dataAsFloat64()` (panic on
a `Bool` operand) and panics on a `Bool` receiver (`a.Data.([]float64)`). -/
def Add_Inplace (a b : NdArray) : GoOutcome Unit × NdArray :=
  if ¬ shapesEqual a.shape b.shape then (.err inplaceShapeMsg, a)
  else match a.data, b.data with
    | .f32 xs, .f32 ys => (.ok (), ⟨a.shape, .f32 (List.zipWith (· + ·) xs ys)⟩)
    | .f32 _, .f64 _ => (.err inplaceDtypeMsg, a)
    | .f32 _, .bool _ => (.panic typeAssertMsg, a)
    | .f64 xs, .f64 ys => (.ok (), ⟨a.shape, .f64 (List.zipWith (· + ·) xs ys)⟩)
    | .f64 xs, .f32 ys => (.ok (), ⟨a.shape, .f64 (List.zipWith (· + ·) xs ys)⟩)
    | .f64 _, .bool _ => (.panic typeAssertMsg, a)
    | .bool _, _ => (.panic typeAssertMsg, a)

/-- `Subtract_Inplace` (`a -= b`), structured like `Add_Inplace`. -/
def Subtract_Inplace (a b : NdArray) : GoOutcome Unit × NdArray :=
  if ¬ shapesEqual a.shape b.shape then (.err inplaceShapeMsg, a)
  else match a.data, b.data with
    | .f32 xs, .f32 ys => (.ok (), ⟨a.shape, .f32 (List.zipWith (· - ·) xs ys)⟩)
    | .f32 _, .f64 _ => (.err inplaceDtypeMsg, a)
    | .f32 _, .bool _ => (.panic typeAssertMsg, a)
    | .f64 xs, .f64 ys => (.ok (), ⟨a.shape, .f64 (List.zipWith (· - ·) xs ys)⟩)
    | .f64 xs, .f32 ys => (.ok (), ⟨a.shape, .f64 (List.zipWith (· - ·) xs ys)⟩)
    | .f64 _, .bool _ => (.panic typeAssertMsg, a)
    | .bool _, _ => (.panic typeAssertMsg, a)

/-- `Multiply_Inplace` (`a *= b`), structured like `Add_Inplace`. -/
def Multiply_Inplace (a b : NdArray) : GoOutcome Unit × NdArray :=
  if ¬ shapesEqual a.shape b.shape then (.err inplaceShapeMsg, a)
  else match a.data, b.data with
    | .f32 xs, .f32 ys => (.ok (), ⟨a.shape, .f32 (List.zipWith (· * ·) xs ys)⟩)
    | .f32 _, .f64 _ => (.err inplaceDtypeMsg, a)
    | .f32 _, .bool _ => (.panic typeAssertMsg, a)
    | .f64 xs, .f64 ys => (.ok (), ⟨a.shape, .f64 (List.zipWith (· * ·) xs ys)⟩)
    | .f64 xs, .f32 ys => (.ok (), ⟨a.shape, .f64 (List.zipWith (· * ·) xs ys)⟩)
    | .f64 _, .bool _ => (.panic typeAssertMsg, a)
    | .bool _, _ => (.panic typeAssertMsg, a)

/-- `Divide_Inplace` (`a /= b`), structured like `Add_Inplace`. -/
def Divide_Inplace (a b : NdArray) : GoOutcome Unit × NdArray :=
  if ¬ shapesEqual a.shape b.shape then (.err inplaceShapeMsg, a)
  else match a.data, b.data with
    | .f32 xs, .f32 ys => (.ok (), ⟨a.shape, .f32 (List.zipWith (· / ·) xs ys)⟩)
    | .f32 _, .f64 _ => (.err inplaceDtypeMsg, a)
    | .f32 _, .bool _ => (.panic typeAssertMsg, a)
    | .f64 xs, .f64 ys => (.ok (), ⟨a.shape, .f64 (List.zipWith (· / ·) xs ys)⟩)
    | .f64 xs, .f32 ys => (.ok (), ⟨a.shape, .f64 (List.zipWith (· / ·) xs ys)⟩)
    | .f64 _, .bool _ => (.panic typeAssertMsg, a)
    | .bool _, _ => (.panic typeAssertMsg, a)

/-- `AddScalar_Inplace` (`a += scalar`); panics on a `Bool` receiver. -/
def AddScalar_Inplace (a : NdArray) (b : ℚ) : GoOutcome Unit × NdArray :=
  match a.data with
  | .f32 xs => (.ok (), ⟨a.shape, .f32 (xs.map (· + b))⟩)
  | .f64 xs => (.ok (), ⟨a.shape, .f64 (xs.map (· + b))⟩)
  | .bool _ => (.panic typeAssertMsg, a)

/-- `SubScalar_Inplace` (`a -= scalar`). -/
def SubScalar_Inplace (a : NdArray) (b : ℚ) : GoOutcome Unit × NdArray :=
  match a.data with
  | .f32 xs => (.ok (), ⟨a.shape, .f32 (xs.map (· - b))⟩)
  | .f64 xs => (.ok (), ⟨a.shape, .f64 (xs.map (· - b))⟩)
  | .bool _ => (.panic typeAssertMsg, a)

/-- `MulScalar_Inplace` (`a *= scalar`). -/
def MulScalar_Inplace (a : NdArray) (b : ℚ) : GoOutcome Unit × NdArray :=
  match a.data with
  | .f32 xs => (.ok (), ⟨a.shape, .f32 (xs.map (· * b))⟩)
  | .f64 xs => (.ok (), ⟨a.shape, .f64 (xs.map (· * b))⟩)
  | .bool _ => (.panic typeAssertMsg, a)

/-- `DivScalar_Inplace` (`a /= scalar`). -/
def DivScalar_Inplace (a : NdArray) (b : ℚ) : GoOutcome Unit × NdArray :=
  match a.data with
  | .f32 xs => (.ok (), ⟨a.shape, .f32 (xs.map (· / b))⟩)
  | .f64 xs => (.ok (), ⟨a.shape, .f64 (xs.map (· / b))⟩)
  | .bool _ => (.panic typeAssertMsg, a)

/-- `Abs`: element-wise absolute value; the non-`Float32` branch goes
through `dataAsFloat64` and so panics on a `Bool` array. -/
def NdArray.Abs (a : NdArray) : GoOutcome NdArray :=
  match a.data with
  | .f32 xs => .ok ⟨a.shape, .f32 (xs.map (fun x => |x|))⟩
  | .f64 xs => .ok ⟨a.shape, .f64 (xs.map (fun x => |x|))⟩
  | .bool _ => .panic typeAssertMsg

/-- `Neg`: element-wise negation, structured like `Abs`. -/
def NdArray.Neg (a : NdArray) : GoOutcome NdArray :=
  match a.data with
  | .f32 xs => .ok ⟨a.shape, .f32 (xs.map (fun x => -x))⟩
  | .f64 xs => .ok ⟨a.shape, .f64 (xs.map (fun x => -x))⟩
  | .bool _ => .panic typeAssertMsg

/-- `Round`: element-wise rounding to the nearest integer (the kernel's
tie-breaking mode is not observable in any claim). -/
def NdArray.Round (a : NdArray) : GoOutcome NdArray :=
  match a.data with
  | .f32 xs => .ok ⟨a.shape, .f32 (xs.map (fun x => (round x : ℚ)))⟩
  | .f64 xs => .ok ⟨a.shape, .f64 (xs.map (fun x => (round x : ℚ)))⟩
  | .bool _ => .panic typeAssertMsg

/-- `Floor`: element-wise floor, structured like `Abs`. -/
def NdArray.Floor (a : NdArray) : GoOutcome NdArray :=
  match a.data with
  | .f32 xs => .ok ⟨a.shape, .f32 (xs.map (fun x => (⌊x⌋ : ℚ)))⟩
  | .f64 xs => .ok ⟨a.shape, .f64 (xs.map (fun x => (⌊x⌋ : ℚ)))⟩
  | .bool _ => .panic typeAssertMsg

/-- `Ceil`: element-wise ceiling, structured like `Abs`. -/
def NdArray.Ceil (a : NdArray) : GoOutcome NdArray :=
  match a.data with
  | .f32 xs => .ok ⟨a.shape, .f32 (xs.map (fun x => (⌈x⌉ : ℚ)))⟩
  | .f64 xs => .ok ⟨a.shape, .f64 (xs.map (fun x => (⌈x⌉ : ℚ)))⟩
  | .bool _ => .panic typeAssertMsg

/-- Running left-to-right scan used by the cumulative kernels:
`cumScan f acc [x₁, x₂, …] = [f acc x₁, f (f acc x₁) x₂, …]`. -/
def cumScan (f : ℚ → ℚ → ℚ) (acc : ℚ) : List ℚ → List ℚ
  | [] => []
  | x :: xs => f acc x :: cumScan f (f acc x) xs

/-- `CumSum`: cumulative sum over the flat buffer, structured like `Abs`. -/
def NdArray.CumSum (a : NdArray) : GoOutcome NdArray :=
  match a.data with
  | .f32 xs => .ok ⟨a.shape, .f32 (cumScan (· + ·) 0 xs)⟩
  | .f64 xs => .ok ⟨a.shape, .f64 (cumScan (· + ·) 0 xs)⟩
  | .bool _ => .panic typeAssertMsg

/-- `CumProd`: cumulative product over the flat buffer. -/
def NdArray.CumProd (a : NdArray) : GoOutcome NdArray :=
  match a.data with
  | .f32 xs => .ok ⟨a.shape, .f32 (cumScan (· * ·) 1 xs)⟩
  | .f64 xs => .ok ⟨a.shape, .f64 (cumScan (· * ·) 1 xs)⟩
  | .bool _ => .panic typeAssertMsg

/-- `ApplyHadamardOp`: applies a custom `float64 → float64` function
element-wise, promoting a `Float32` receiver to `Float64` (state passing:
the Go method mutates the receiver and returns an error).  The `Float64`
branch asserts `a.Data.([]float64)`, panicking on a `Bool` receiver. -/
def ApplyHadamardOp (a : NdArray) (op : ℚ → ℚ) : GoOutcome NdArray :=
  match a.data with
  | .f32 xs => .ok ⟨a.shape, .f64 (xs.map op)⟩
  | .f64 xs => .ok ⟨a.shape, .f64 (xs.map op)⟩
  | .bool _ => .panic typeAssertMsg

/-- `Reshape` rejects a shape with a different total size by returning
`nil`, and otherwise re-labels the same buffer (the Go method mutates
`x.shape` and returns `x`; the returned array is the receiver's new state). -/
def Reshape (x : NdArray) (shape : List Nat) : Option NdArray :=
  if ¬ (ProdInt shape = ProdInt x.shape) then none
  else some ⟨shape, x.data⟩

/-- Go runtime panic message for slicing out of range in `InsertAxis`. -/
def sliceOobMsg : String := "slice bounds out of range"

/-- `InsertAxis` inserts a unit dimension at `pos` (negative positions count
from the end) and revalidates through `NewNdArray`, panicking if that fails
(it cannot on an array satisfying the length invariant). -/
def InsertAxis (x : NdArray) (pos : Int) : GoOutcome NdArray :=
  let rank := x.shape.length
  let p := if pos < 0 then pos + rank + 1 else pos
  if p < 0 ∨ (rank : Int) < p then .panic sliceOobMsg
  else
    let result := x.shape.take p.toNat ++ 1 :: x.shape.drop p.toNat
    match NewNdArray result x.data with
    | .ok y => .ok y
    | .err m => .panic m
    | .panic m => .panic m

/-- `Zeros` allocates a `float64` buffer of the shape's total size (the Go
struct literal leaves `dtype` at its zero value, `Float64`). -/
def Zeros (shape : List Nat) : NdArray :=
  ⟨shape, .f64 (List.replicate (ProdInt shape) 0)⟩

/-- The structural invariant: the buffer length equals the product of the
shape's dimensions. -/
def WF (a : NdArray) : Prop := a.data.buflen = ProdInt a.shape

instance (a : NdArray) : Decidable (WF a) :=
  inferInstanceAs (Decidable (_ = _))

/-- Numeric payload view of a buffer, used only to state theorems about
numeric arrays: `none` exactly for a `Bool` buffer. -/
def floatElems : Buf → Option (List ℚ)
  | .f64 xs => some xs
  | .f32 xs => some xs
  | .bool _ => none

/- ## Basic lemmas about shapes and products -/

theorem prodInt_eq_prod (l : List Nat) : ProdInt l = l.prod := by
  simpa [ProdInt] using (List.prod_eq_foldl (l := l)).symm

theorem pos_of_lt_prodInt {l : List Nat} {i : Nat} (h : i < ProdInt l) :
    ∀ d ∈ l, 0 < d := by
  intro d hd
  rcases Nat.eq_zero_or_pos d with h0 | h1
  · exfalso
    have : ProdInt l = 0 := by
      rw [prodInt_eq_prod]
      exact List.prod_eq_zero (h0 ▸ hd)
    omega
  · exact h1

/- ## The index mapper computes the claim's formula (C4) -/

theorem broadcastIndexLoop_eq (rRev : List Nat) :
    ∀ sRev i originalIndex stride, (∀ d ∈ rRev, 0 < d) →
      broadcastIndexLoop rRev sRev i originalIndex stride
        = originalIndex + stride * mapIndexSpecRev rRev sRev i := by
  induction rRev with
  | nil => intro sRev i o st _; simp [broadcastIndexLoop, mapIndexSpecRev]
  | cons rDim rRest ih =>
    intro sRev i o st hpos
    have hr : 0 < rDim := hpos rDim (by simp)
    have hrest : ∀ d ∈ rRest, 0 < d := fun d hd => hpos d (by simp [hd])
    -- the code's pin condition (sDim ≠ rDim ∧ sDim = 1) agrees with the
    -- claim's (sDim = 1 ∧ 1 < rDim) on positive result dimensions
    have hcond : (sRev.headD 1 ≠ rDim ∧ sRev.headD 1 = 1)
        ↔ (sRev.headD 1 = 1 ∧ 1 < rDim) := by
      constructor
      · rintro ⟨hne, h1⟩; exact ⟨h1, by omega⟩
      · rintro ⟨h1, hgt⟩; exact ⟨by omega, h1⟩
    simp only [broadcastIndexLoop, mapIndexSpecRev,
      ih sRev.tail (i / rDim) _ _ hrest]
    by_cases hc : sRev.headD 1 = 1 ∧ 1 < rDim
    · simp only [if_pos hc, if_pos (hcond.mpr hc)]
      ring
    · simp only [if_neg hc, if_neg (fun h => hc (hcond.mp h))]
      ring

@[simp] theorem ok_bind (a : α) (f : α → GoOutcome β) : (GoOutcome.ok a >>= f) = f a := rfl

@[simp] theorem err_bind (m : String) (f : α → GoOutcome β) :
    (GoOutcome.err m >>= f) = GoOutcome.err m := rfl

@[simp] theorem panic_bind (m : String) (f : α → GoOutcome β) :
    (GoOutcome.panic m >>= f) = GoOutcome.panic m := rfl

theorem mapIndexSpecRev_self (rRev : List Nat) :
    ∀ i, i < rRev.prod → mapIndexSpecRev rRev rRev i = i := by
  induction rRev with
  | nil =>
    intro i hi
    simp only [List.prod_nil, Nat.lt_one_iff] at hi
    simp [mapIndexSpecRev, hi]
  | cons d rest ih =>
    intro i hi
    have hd : 0 < d := by
      rcases Nat.eq_zero_or_pos d with h0 | h1
      · simp [h0] at hi
      · exact h1
    have hdiv : i / d < rest.prod := by
      rw [Nat.div_lt_iff_lt_mul hd]
      simpa [List.prod_cons, Nat.mul_comm] using hi
    have hpin : ¬ (d = 1 ∧ 1 < d) := by omega
    simp only [mapIndexSpecRev, List.headD_cons, List.tail_cons, if_neg hpin,
      ih (i / d) hdiv]
    exact Nat.mod_add_div i d


theorem dimAt_eq_one {t : List Nat} (h1 : ∀ d ∈ t, d = 1) (i : Nat) : dimAt t i = 1 := by
  unfold dimAt
  split
  · next hlt =>
    rw [List.getD_eq_getElem?_getD]
    rcases hg : t[t.length - 1 - i]? with _ | d
    · simp
    · exact h1 d (List.getElem?_mem hg)
  · rfl

theorem hasIncompatibleDim_self (s : List Nat) : hasIncompatibleDim s s = false := by
  simp [hasIncompatibleDim]

theorem all_one_of_prodInt_one {t : List Nat} (h : ProdInt t = 1) : ∀ d ∈ t, d = 1 := by
  intro d hd
  have hdvd : d ∣ t.prod := List.dvd_prod hd
  rw [← prodInt_eq_prod, h] at hdvd
  exact Nat.dvd_one.mp hdvd

theorem hasIncompatibleDim_of_prod_one_left {s : List Nat} (t : List Nat)
    (h : ProdInt s = 1) : hasIncompatibleDim s t = false := by
  simp only [hasIncompatibleDim, List.any_eq_false]
  intro i _
  simp [dimAt_eq_one (all_one_of_prodInt_one h)]

theorem hasIncompatibleDim_of_prod_one_right (s : List Nat) {t : List Nat}
    (h : ProdInt t = 1) : hasIncompatibleDim s t = false := by
  simp only [hasIncompatibleDim, List.any_eq_false]
  intro i _
  simp [dimAt_eq_one (all_one_of_prodInt_one h)]

/- ## Claim theorems -/

/-- C4: for every source shape `s` with `rank(s) ≤ rank(r)`, result shape
`r` broadcast-compatible with `s`, and valid flat index `i` in `r`,
`broadcastIndex s r i` equals the row-major linearization against `s`'s own
strides of the coordinate vector of `i` in `r`, with every axis whose
right-aligned source dimension is 1 while the result dimension exceeds 1
pinned to 0; in particular `broadcastIndex s s j = j` for every valid `j`. -/
theorem broadcastIndex_correct (s r : List Nat) (i : Nat)
    (hrank : s.length ≤ r.length)
    (hcompat : hasIncompatibleDim s r = false)
    (hi : i < ProdInt r) :
    broadcastIndex s r i = GoOutcome.ok (mapIndexSpec s r i)
      ∧ ∀ j, j < ProdInt s → broadcastIndex s s j = GoOutcome.ok j := by
  constructor
  · unfold broadcastIndex
    rw [if_neg (by omega)]
    have hpos : ∀ d ∈ r.reverse, 0 < d := fun d hd =>
      pos_of_lt_prodInt hi d (List.mem_reverse.mp hd)
    rw [broadcastIndexLoop_eq r.reverse s.reverse i 0 1 hpos]
    simp [mapIndexSpec]
  · intro j hj
    unfold broadcastIndex
    rw [if_neg (by omega)]
    have hpos : ∀ d ∈ s.reverse, 0 < d := fun d hd =>
      pos_of_lt_prodInt hj d (List.mem_reverse.mp hd)
    rw [broadcastIndexLoop_eq s.reverse s.reverse j 0 1 hpos]
    have hj' : j < s.reverse.prod := by
      rw [List.prod_reverse, ← prodInt_eq_prod]; exact hj
    rw [mapIndexSpecRev_self s.reverse j hj']
    simp

/-- Witness for `broadcastIndex_correct` at `s = [3]`, `r = [2,3]`, `i = 4`. -/
theorem broadcastIndex_correct_witness :
    ([3] : List Nat).length ≤ ([2, 3] : List Nat).length
      ∧ hasIncompatibleDim [3] [2, 3] = false
      ∧ 4 < ProdInt [2, 3]
      ∧ (broadcastIndex [3] [2, 3] 4 = GoOutcome.ok (mapIndexSpec [3] [2, 3] 4)
          ∧ ∀ j, j < ProdInt [3] → broadcastIndex [3] [3] j = GoOutcome.ok j) :=
  ⟨by decide, by decide, by decide,
    broadcastIndex_correct [3] [2, 3] 4 (by decide) (by decide) (by decide)⟩

/-- C5: adding the Float64 array of shape `[2,3]` with data `[1,2,3,4,5,6]`
to the Float64 array of shape `[3]` with data `[1,2,3]` succeeds and yields
shape `[2,3]` with data `[2,4,6,5,7,9]`. -/
theorem add_broadcast_scenario1 :
    Add ⟨[2, 3], .f64 [1, 2, 3, 4, 5, 6]⟩ ⟨[3], .f64 [1, 2, 3]⟩
      = .ok ⟨[2, 3], .f64 [2, 4, 6, 5, 7, 9]⟩ := by
  norm_num [Add, shapesEqual, ProdInt, ApplyOp, broadcastShapes, hasIncompatibleDim, dimAt,
    broadcastIndex, broadcastIndexLoop, dataAsFloat64, List.range_succ, List.getD]
  norm_num +decide [List.getD]

/-- C1 (failing input): the scalar fast path fires for any operand of total
size 1, but reads its single element with `Get([]int{0})` and discards the
error; for a size-1 operand of rank 2 (shape `[1,1]`) that call rejects the
index length and returns 0, so `Add` adds 0 instead of the stored scalar 5
and returns `a` unchanged rather than `[6,7]`. -/
theorem add_scalarPath_rank2_reads_zero :
    Add ⟨[2], .f64 [1, 2]⟩ ⟨[1, 1], .f64 [5]⟩ = .ok ⟨[2], .f64 [1, 2]⟩ := by
  norm_num [Add, shapesEqual, ProdInt, Get, getOffset, discardErr, dataAsFloat64, List.get?]

/-- C3 (failing input): mixing a `Bool` array with a numeric array of equal
shape in `Add` does not return a type-mismatch error; it panics in
`dataAsFloat64` on the failed `a.Data.([]float32)` interface type assertion,
so the failure is a runtime panic rather than a recoverable error value. -/
theorem add_bool_numeric_panics :
    Add ⟨[2], .bool [true, false]⟩ ⟨[2], .f64 [1, 2]⟩ = .panic typeAssertMsg := by
  norm_num [Add, shapesEqual, dataAsFloat64]

/-- C6: whenever some right-aligned dimension pair of the two shapes is
unequal with neither side 1, `broadcastShapes` fails with the
incompatible-shape error, and all four binary arithmetic operations fail
with that same error — none returns a result (in particular none returns an
array carrying either input shape). -/
theorem incompatible_shapes_all_ops_fail (a b : NdArray)
    (h : hasIncompatibleDim a.shape b.shape = true) :
    broadcastShapes a.shape b.shape = .err (incompatMsg a.shape b.shape)
      ∧ Add a b = .err (incompatMsg a.shape b.shape)
      ∧ Subtract a b = .err (incompatMsg a.shape b.shape)
      ∧ Multiply a b = .err (incompatMsg a.shape b.shape)
      ∧ Divide a b = .err (incompatMsg a.shape b.shape) := by
  have hne : shapesEqual a.shape b.shape = false := by
    rcases Bool.eq_false_or_eq_true (shapesEqual a.shape b.shape) with ht | hf
    · exfalso
      have heq : a.shape = b.shape := by simpa [shapesEqual] using ht
      rw [heq, hasIncompatibleDim_self] at h
      simp at h
    · exact hf
  have hb1 : ProdInt b.shape ≠ 1 := by
    intro h1
    rw [hasIncompatibleDim_of_prod_one_right a.shape h1] at h
    simp at h
  have ha1 : ProdInt a.shape ≠ 1 := by
    intro h1
    rw [hasIncompatibleDim_of_prod_one_left b.shape h1] at h
    simp at h
  refine ⟨by simp [broadcastShapes, h], ?_, ?_, ?_, ?_⟩ <;>
    simp [Add, Subtract, Multiply, Divide, hne, ha1, hb1, ApplyOp, broadcastShapes, h]

/-- Witness for `incompatible_shapes_all_ops_fail` at shapes `[2,3]` and
`[4,3]`. -/
theorem incompatible_shapes_all_ops_fail_witness :
    hasIncompatibleDim ([2, 3] : List Nat) [4, 3] = true
      ∧ (broadcastShapes ([2, 3] : List Nat) [4, 3] = .err (incompatMsg [2, 3] [4, 3])
          ∧ Add ⟨[2, 3], .f64 [1, 2, 3, 4, 5, 6]⟩ ⟨[4, 3], .bool (List.replicate 12 true)⟩
              = .err (incompatMsg [2, 3] [4, 3])
          ∧ Subtract ⟨[2, 3], .f64 [1, 2, 3, 4, 5, 6]⟩ ⟨[4, 3], .bool (List.replicate 12 true)⟩
              = .err (incompatMsg [2, 3] [4, 3])
          ∧ Multiply ⟨[2, 3], .f64 [1, 2, 3, 4, 5, 6]⟩ ⟨[4, 3], .bool (List.replicate 12 true)⟩
              = .err (incompatMsg [2, 3] [4, 3])
          ∧ Divide ⟨[2, 3], .f64 [1, 2, 3, 4, 5, 6]⟩ ⟨[4, 3], .bool (List.replicate 12 true)⟩
              = .err (incompatMsg [2, 3] [4, 3])) :=
  ⟨by decide,
    incompatible_shapes_all_ops_fail
      ⟨[2, 3], .f64 [1, 2, 3, 4, 5, 6]⟩ ⟨[4, 3], .bool (List.replicate 12 true)⟩ (by decide)⟩

/-- C8: every binary in-place operation given a receiver and operand of
unequal shapes fails with the shape-mismatch error before touching the
receiver, whose shape and buffer are returned unchanged. -/
theorem inplace_shape_mismatch_no_mutation (a b : NdArray) (h : a.shape ≠ b.shape) :
    Add_Inplace a b = (.err inplaceShapeMsg, a)
      ∧ Subtract_Inplace a b = (.err inplaceShapeMsg, a)
      ∧ Multiply_Inplace a b = (.err inplaceShapeMsg, a)
      ∧ Divide_Inplace a b = (.err inplaceShapeMsg, a) := by
  have hne : shapesEqual a.shape b.shape = false := by
    simp [shapesEqual, h]
  exact ⟨by simp [Add_Inplace, hne], by simp [Subtract_Inplace, hne],
    by simp [Multiply_Inplace, hne], by simp [Divide_Inplace, hne]⟩

/-- Witness for `inplace_shape_mismatch_no_mutation`: receiver of shape
`[2,2]` with data `[1,2,3,4]`, operand of (broadcast-compatible but unequal)
shape `[1,2]` with data `[1,2]`. -/
theorem inplace_shape_mismatch_no_mutation_witness :
    ([2, 2] : List Nat) ≠ [1, 2]
      ∧ (Add_Inplace ⟨[2, 2], .f64 [1, 2, 3, 4]⟩ ⟨[1, 2], .f64 [1, 2]⟩
            = (.err inplaceShapeMsg, ⟨[2, 2], .f64 [1, 2, 3, 4]⟩)
          ∧ Subtract_Inplace ⟨[2, 2], .f64 [1, 2, 3, 4]⟩ ⟨[1, 2], .f64 [1, 2]⟩
              = (.err inplaceShapeMsg, ⟨[2, 2], .f64 [1, 2, 3, 4]⟩)
          ∧ Multiply_Inplace ⟨[2, 2], .f64 [1, 2, 3, 4]⟩ ⟨[1, 2], .f64 [1, 2]⟩
              = (.err inplaceShapeMsg, ⟨[2, 2], .f64 [1, 2, 3, 4]⟩)
          ∧ Divide_Inplace ⟨[2, 2], .f64 [1, 2, 3, 4]⟩ ⟨[1, 2], .f64 [1, 2]⟩
              = (.err inplaceShapeMsg, ⟨[2, 2], .f64 [1, 2, 3, 4]⟩)) :=
  ⟨by decide,
    inplace_shape_mismatch_no_mutation
      ⟨[2, 2], .f64 [1, 2, 3, 4]⟩ ⟨[1, 2], .f64 [1, 2]⟩ (by decide)⟩

/-- C2 (counterexample): a Float64 receiver given an equal-shape Float32
operand does NOT fail with a type-mismatch error — `Add_Inplace` succeeds
and mutates the receiver (the operand is silently widened), refuting the
claim that in-place operations require exact dtype match regardless of
which operand is the Float64 one. -/
theorem inplace_f64_receiver_f32_operand_succeeds :
    (Add_Inplace ⟨[1], .f64 [1]⟩ ⟨[1], .f32 [2]⟩).1 = .ok ()
      ∧ (Add_Inplace ⟨[1], .f64 [1]⟩ ⟨[1], .f32 [2]⟩).2 = ⟨[1], .f64 [3]⟩ := by
  constructor <;> norm_num [Add_Inplace, shapesEqual]

/-- C2 (amended): for equal-shape numeric arrays of different dtypes, each
binary in-place operation fails with the type-mismatch error and leaves the
receiver unchanged precisely when the receiver is Float32 (operand Float64);
with a Float64 receiver (operand Float32) the operation instead succeeds,
silently widening the operand. -/
theorem inplace_dtype_mismatch_rules (a b : NdArray)
    (hsh : a.shape = b.shape) (hd : a.dtype ≠ b.dtype)
    (hna : a.dtype ≠ DType.Bool) (hnb : b.dtype ≠ DType.Bool) :
    ((a.dtype = DType.Float32 → Add_Inplace a b = (.err inplaceDtypeMsg, a))
      ∧ (a.dtype = DType.Float64 → (Add_Inplace a b).1 = .ok ()))
    ∧ ((a.dtype = DType.Float32 → Subtract_Inplace a b = (.err inplaceDtypeMsg, a))
      ∧ (a.dtype = DType.Float64 → (Subtract_Inplace a b).1 = .ok ()))
    ∧ ((a.dtype = DType.Float32 → Multiply_Inplace a b = (.err inplaceDtypeMsg, a))
      ∧ (a.dtype = DType.Float64 → (Multiply_Inplace a b).1 = .ok ()))
    ∧ ((a.dtype = DType.Float32 → Divide_Inplace a b = (.err inplaceDtypeMsg, a))
      ∧ (a.dtype = DType.Float64 → (Divide_Inplace a b).1 = .ok ())) := by
  have hse : shapesEqual a.shape b.shape = true := by simp [shapesEqual, hsh]
  cases hda : a.data <;> cases hdb : b.data <;>
    simp_all [NdArray.dtype, Add_Inplace, Subtract_Inplace, Multiply_Inplace,
      Divide_Inplace]

/-- Witness for `inplace_dtype_mismatch_rules`: Float32 receiver `[1]` with
Float64 operand `[2]` of the same shape `[1]`. -/
theorem inplace_dtype_mismatch_rules_witness :
    (NdArray.mk [1] (.f32 [1])).shape = (NdArray.mk [1] (.f64 [2])).shape
      ∧ (NdArray.mk [1] (.f32 [1])).dtype ≠ (NdArray.mk [1] (.f64 [2])).dtype
      ∧ (NdArray.mk [1] (.f32 [1])).dtype ≠ DType.Bool
      ∧ (NdArray.mk [1] (.f64 [2])).dtype ≠ DType.Bool
      ∧ (((NdArray.mk [1] (.f32 [1])).dtype = DType.Float32 →
            Add_Inplace ⟨[1], .f32 [1]⟩ ⟨[1], .f64 [2]⟩
              = (.err inplaceDtypeMsg, ⟨[1], .f32 [1]⟩))
          ∧ ((NdArray.mk [1] (.f32 [1])).dtype = DType.Float64 →
            (Add_Inplace ⟨[1], .f32 [1]⟩ ⟨[1], .f64 [2]⟩).1 = .ok ()))
        ∧ (((NdArray.mk [1] (.f32 [1])).dtype = DType.Float32 →
            Subtract_Inplace ⟨[1], .f32 [1]⟩ ⟨[1], .f64 [2]⟩
              = (.err inplaceDtypeMsg, ⟨[1], .f32 [1]⟩))
          ∧ ((NdArray.mk [1] (.f32 [1])).dtype = DType.Float64 →
            (Subtract_Inplace ⟨[1], .f32 [1]⟩ ⟨[1], .f64 [2]⟩).1 = .ok ()))
        ∧ (((NdArray.mk [1] (.f32 [1])).dtype = DType.Float32 →
            Multiply_Inplace ⟨[1], .f32 [1]⟩ ⟨[1], .f64 [2]⟩
              = (.err inplaceDtypeMsg, ⟨[1], .f32 [1]⟩))
          ∧ ((NdArray.mk [1] (.f32 [1])).dtype = DType.Float64 →
            (Multiply_Inplace ⟨[1], .f32 [1]⟩ ⟨[1], .f64 [2]⟩).1 = .ok ()))
        ∧ (((NdArray.mk [1] (.f32 [1])).dtype = DType.Float32 →
            Divide_Inplace ⟨[1], .f32 [1]⟩ ⟨[1], .f64 [2]⟩
              = (.err inplaceDtypeMsg, ⟨[1], .f32 [1]⟩))
          ∧ ((NdArray.mk [1] (.f32 [1])).dtype = DType.Float64 →
            (Divide_Inplace ⟨[1], .f32 [1]⟩ ⟨[1], .f64 [2]⟩).1 = .ok ())) :=
  ⟨by decide, by decide, by decide, by decide,
    inplace_dtype_mismatch_rules ⟨[1], .f32 [1]⟩ ⟨[1], .f64 [2]⟩
      (by decide) (by decide) (by decide) (by decide)⟩

/-- C10: two Float32 arrays with unequal but broadcast-compatible shapes,
neither of total size 1, take the general broadcast path of every binary
arithmetic operation and produce a Float64 result, not Float32 — the
Float32-preserving fast paths are only the equal-shape and size-1 ones. -/
theorem f32_general_broadcast_promotes_f64 (a b : NdArray) (xs ys : List ℚ)
    (hda : a.data = .f32 xs) (hdb : b.data = .f32 ys)
    (hne : a.shape ≠ b.shape) (hpa : ProdInt a.shape ≠ 1) (hpb : ProdInt b.shape ≠ 1)
    (hc : hasIncompatibleDim a.shape b.shape = false) :
    (∃ r, Add a b = .ok r ∧ r.dtype = DType.Float64)
      ∧ (∃ r, Subtract a b = .ok r ∧ r.dtype = DType.Float64)
      ∧ (∃ r, Multiply a b = .ok r ∧ r.dtype = DType.Float64)
      ∧ (∃ r, Divide a b = .ok r ∧ r.dtype = DType.Float64) := by
  have hse : shapesEqual a.shape b.shape = false := by simp [shapesEqual, hne]
  have hbs : broadcastShapes a.shape b.shape
      = .ok ((List.range (max a.shape.length b.shape.length)).map fun j =>
          max (dimAt a.shape (max a.shape.length b.shape.length - 1 - j))
            (dimAt b.shape (max a.shape.length b.shape.length - 1 - j))) := by
    simp [broadcastShapes, hc]
  have key : ∀ op, ∃ r, ApplyOp a b op = .ok r ∧ r.dtype = DType.Float64 := by
    intro op
    unfold ApplyOp
    rw [hbs]
    simp only [ok_bind, dataAsFloat64, hda, hdb]
    exact ⟨_, rfl, rfl⟩
  refine ⟨?_, ?_, ?_, ?_⟩
  · rw [show Add a b = ApplyOp a b (fun x y => x + y) from by simp [Add, hse, hpa, hpb]]
    exact key _
  · rw [show Subtract a b = ApplyOp a b (fun x y => x - y) from by
      simp [Subtract, hse, hpa, hpb]]
    exact key _
  · rw [show Multiply a b = ApplyOp a b (fun x y => x * y) from by
      simp [Multiply, hse, hpa, hpb]]
    exact key _
  · rw [show Divide a b = ApplyOp a b (fun x y => x / y) from by
      simp [Divide, hse, hpa, hpb]]
    exact key _

/-- Witness for `f32_general_broadcast_promotes_f64`: Float32 arrays of
shapes `[2,1]` and `[3]` (broadcast-compatible, unequal, neither size 1). -/
theorem f32_general_broadcast_promotes_f64_witness :
    (NdArray.mk [2, 1] (.f32 [1, 2])).data = .f32 [1, 2]
      ∧ (NdArray.mk [3] (.f32 [1, 2, 3])).data = .f32 [1, 2, 3]
      ∧ (NdArray.mk [2, 1] (.f32 [1, 2])).shape ≠ (NdArray.mk [3] (.f32 [1, 2, 3])).shape
      ∧ ProdInt (NdArray.mk [2, 1] (.f32 [1, 2])).shape ≠ 1
      ∧ ProdInt (NdArray.mk [3] (.f32 [1, 2, 3])).shape ≠ 1
      ∧ hasIncompatibleDim (NdArray.mk [2, 1] (.f32 [1, 2])).shape
          (NdArray.mk [3] (.f32 [1, 2, 3])).shape = false
      ∧ ((∃ r, Add ⟨[2, 1], .f32 [1, 2]⟩ ⟨[3], .f32 [1, 2, 3]⟩ = .ok r
            ∧ r.dtype = DType.Float64)
        ∧ (∃ r, Subtract ⟨[2, 1], .f32 [1, 2]⟩ ⟨[3], .f32 [1, 2, 3]⟩ = .ok r
            ∧ r.dtype = DType.Float64)
        ∧ (∃ r, Multiply ⟨[2, 1], .f32 [1, 2]⟩ ⟨[3], .f32 [1, 2, 3]⟩ = .ok r
            ∧ r.dtype = DType.Float64)
        ∧ (∃ r, Divide ⟨[2, 1], .f32 [1, 2]⟩ ⟨[3], .f32 [1, 2, 3]⟩ = .ok r
            ∧ r.dtype = DType.Float64)) :=
  ⟨rfl, rfl, by decide, by decide, by decide, by decide,
    f32_general_broadcast_promotes_f64 ⟨[2, 1], .f32 [1, 2]⟩ ⟨[3], .f32 [1, 2, 3]⟩
      [1, 2] [1, 2, 3] rfl rfl (by decide) (by decide) (by decide) (by decide)⟩

/-- C7: for numeric operands, all six comparisons and the three logical
operations fail when the shapes are not exactly equal (no broadcasting); on
exactly equal shapes each comparison returns a `Bool` array of the same
shape whose element `i` is the comparison of the operands' elements at flat
position `i`. -/
theorem comparison_logical_shape_contract (a b : NdArray) (xs ys : List ℚ)
    (hx : floatElems a.data = some xs) (hy : floatElems b.data = some ys) :
    (a.shape ≠ b.shape →
      Eq a b = .err bcastBoolMsg ∧ Neq a b = .err bcastBoolMsg
        ∧ Lt a b = .err bcastBoolMsg ∧ Lte a b = .err bcastBoolMsg
        ∧ Gt a b = .err bcastBoolMsg ∧ Gte a b = .err bcastBoolMsg
        ∧ And a b = .err bcastBoolMsg ∧ Or a b = .err bcastBoolMsg
        ∧ Xor a b = .err bcastBoolMsg)
    ∧ (a.shape = b.shape →
      Eq a b = .ok ⟨a.shape, .bool (List.zipWith (fun x y => decide (x = y)) xs ys)⟩
        ∧ Neq a b = .ok ⟨a.shape, .bool (List.zipWith (fun x y => decide (x ≠ y)) xs ys)⟩
        ∧ Lt a b = .ok ⟨a.shape, .bool (List.zipWith (fun x y => decide (x < y)) xs ys)⟩
        ∧ Lte a b = .ok ⟨a.shape, .bool (List.zipWith (fun x y => decide (x ≤ y)) xs ys)⟩
        ∧ Gt a b = .ok ⟨a.shape, .bool (List.zipWith (fun x y => decide (y < x)) xs ys)⟩
        ∧ Gte a b = .ok ⟨a.shape, .bool (List.zipWith (fun x y => decide (y ≤ x)) xs ys)⟩) := by
  constructor
  · intro hne
    have hse : shapesEqual a.shape b.shape = false := by simp [shapesEqual, hne]
    refine ⟨?_, ?_, ?_, ?_, ?_, ?_, ?_, ?_, ?_⟩ <;>
      simp [Eq, Neq, Lt, Lte, Gt, Gte, And, Or, Xor, hse]
  · intro heq
    have hse : shapesEqual a.shape b.shape = true := by simp [shapesEqual, heq]
    have hax : a.data = .f64 xs ∨ a.data = .f32 xs := by
      rcases hda : a.data with xs' | xs' | zs
      · left
        rw [hda] at hx
        simp only [floatElems, Option.some.injEq] at hx
        rw [hx]
      · right
        rw [hda] at hx
        simp only [floatElems, Option.some.injEq] at hx
        rw [hx]
      · rw [hda] at hx
        simp [floatElems] at hx
    have hby : b.data = .f64 ys ∨ b.data = .f32 ys := by
      rcases hdb : b.data with ys' | ys' | zs
      · left
        rw [hdb] at hy
        simp only [floatElems, Option.some.injEq] at hy
        rw [hy]
      · right
        rw [hdb] at hy
        simp only [floatElems, Option.some.injEq] at hy
        rw [hy]
      · rw [hdb] at hy
        simp [floatElems] at hy
    rcases hax with hda | hda <;> rcases hby with hdb | hdb <;>
      exact ⟨by simp [Eq, hse, hda, hdb], by simp [Neq, hse, hda, hdb],
        by simp [Lt, hse, hda, hdb], by simp [Lte, hse, hda, hdb],
        by simp [Gt, hse, hda, hdb], by simp [Gte, hse, hda, hdb]⟩

/-- Witness for `comparison_logical_shape_contract` at the numeric arrays
`[1,2,3,4]` and `[2,2,2,2]` of shape `[4]`. -/
theorem comparison_logical_shape_contract_witness :
    floatElems (NdArray.mk [4] (.f64 [1, 2, 3, 4])).data = some [1, 2, 3, 4]
      ∧ floatElems (NdArray.mk [4] (.f64 [2, 2, 2, 2])).data = some [2, 2, 2, 2]
      ∧ (((NdArray.mk [4] (.f64 [1, 2, 3, 4])).shape
            ≠ (NdArray.mk [4] (.f64 [2, 2, 2, 2])).shape →
          Eq ⟨[4], .f64 [1, 2, 3, 4]⟩ ⟨[4], .f64 [2, 2, 2, 2]⟩ = .err bcastBoolMsg
            ∧ Neq ⟨[4], .f64 [1, 2, 3, 4]⟩ ⟨[4], .f64 [2, 2, 2, 2]⟩ = .err bcastBoolMsg
            ∧ Lt ⟨[4], .f64 [1, 2, 3, 4]⟩ ⟨[4], .f64 [2, 2, 2, 2]⟩ = .err bcastBoolMsg
            ∧ Lte ⟨[4], .f64 [1, 2, 3, 4]⟩ ⟨[4], .f64 [2, 2, 2, 2]⟩ = .err bcastBoolMsg
            ∧ Gt ⟨[4], .f64 [1, 2, 3, 4]⟩ ⟨[4], .f64 [2, 2, 2, 2]⟩ = .err bcastBoolMsg
            ∧ Gte ⟨[4], .f64 [1, 2, 3, 4]⟩ ⟨[4], .f64 [2, 2, 2, 2]⟩ = .err bcastBoolMsg
            ∧ And ⟨[4], .f64 [1, 2, 3, 4]⟩ ⟨[4], .f64 [2, 2, 2, 2]⟩ = .err bcastBoolMsg
            ∧ Or ⟨[4], .f64 [1, 2, 3, 4]⟩ ⟨[4], .f64 [2, 2, 2, 2]⟩ = .err bcastBoolMsg
            ∧ Xor ⟨[4], .f64 [1, 2, 3, 4]⟩ ⟨[4], .f64 [2, 2, 2, 2]⟩ = .err bcastBoolMsg)
        ∧ ((NdArray.mk [4] (.f64 [1, 2, 3, 4])).shape
            = (NdArray.mk [4] (.f64 [2, 2, 2, 2])).shape →
          Eq ⟨[4], .f64 [1, 2, 3, 4]⟩ ⟨[4], .f64 [2, 2, 2, 2]⟩
              = .ok ⟨(NdArray.mk [4] (.f64 [1, 2, 3, 4])).shape,
                  .bool (List.zipWith (fun x y => decide (x = y)) [1, 2, 3, 4] [2, 2, 2, 2])⟩
            ∧ Neq ⟨[4], .f64 [1, 2, 3, 4]⟩ ⟨[4], .f64 [2, 2, 2, 2]⟩
              = .ok ⟨(NdArray.mk [4] (.f64 [1, 2, 3, 4])).shape,
                  .bool (List.zipWith (fun x y => decide (x ≠ y)) [1, 2, 3, 4] [2, 2, 2, 2])⟩
            ∧ Lt ⟨[4], .f64 [1, 2, 3, 4]⟩ ⟨[4], .f64 [2, 2, 2, 2]⟩
              = .ok ⟨(NdArray.mk [4] (.f64 [1, 2, 3, 4])).shape,
                  .bool (List.zipWith (fun x y => decide (x < y)) [1, 2, 3, 4] [2, 2, 2, 2])⟩
            ∧ Lte ⟨[4], .f64 [1, 2, 3, 4]⟩ ⟨[4], .f64 [2, 2, 2, 2]⟩
              = .ok ⟨(NdArray.mk [4] (.f64 [1, 2, 3, 4])).shape,
                  .bool (List.zipWith (fun x y => decide (x ≤ y)) [1, 2, 3, 4] [2, 2, 2, 2])⟩
            ∧ Gt ⟨[4], .f64 [1, 2, 3, 4]⟩ ⟨[4], .f64 [2, 2, 2, 2]⟩
              = .ok ⟨(NdArray.mk [4] (.f64 [1, 2, 3, 4])).shape,
                  .bool (List.zipWith (fun x y => decide (y < x)) [1, 2, 3, 4] [2, 2, 2, 2])⟩
            ∧ Gte ⟨[4], .f64 [1, 2, 3, 4]⟩ ⟨[4], .f64 [2, 2, 2, 2]⟩
              = .ok ⟨(NdArray.mk [4] (.f64 [1, 2, 3, 4])).shape,
                  .bool (List.zipWith (fun x y => decide (y ≤ x)) [1, 2, 3, 4] [2, 2, 2, 2])⟩)) :=
  ⟨rfl, rfl,
    comparison_logical_shape_contract ⟨[4], .f64 [1, 2, 3, 4]⟩ ⟨[4], .f64 [2, 2, 2, 2]⟩
      [1, 2, 3, 4] [2, 2, 2, 2] rfl rfl⟩

theorem wf_mk {shape : List Nat} {d : Buf} (h : d.buflen = ProdInt shape) :
    WF ⟨shape, d⟩ := h

theorem cumScan_length (f : ℚ → ℚ → ℚ) (xs : List ℚ) :
    ∀ acc, (cumScan f acc xs).length = xs.length := by
  induction xs with
  | nil => intro acc; rfl
  | cons x rest ih => intro acc; simp [cumScan, ih]

theorem newNdArray_wf (s : List Nat) (d : Buf) (r : NdArray)
    (h : NewNdArray s d = .ok r) : WF r := by
  rw [NewNdArray] at h
  split at h
  · exact absurd h (by simp)
  · next hc =>
    injection h with h'
    subst h'
    have hpe : ProdInt s = d.buflen := by push_neg at hc; exact hc
    exact wf_mk hpe.symm

theorem applyOp_wf {a b : NdArray} {op : ℚ → ℚ → ℚ} {r : NdArray}
    (h : ApplyOp a b op = .ok r) : WF r := by
  unfold ApplyOp at h
  cases hbs : broadcastShapes a.shape b.shape with
  | err m => rw [hbs] at h; simp at h
  | panic m => rw [hbs] at h; simp at h
  | ok bs =>
    rw [hbs] at h
    simp only [ok_bind] at h
    cases hda : dataAsFloat64 a with
    | err m => rw [hda] at h; simp at h
    | panic m => rw [hda] at h; simp at h
    | ok aData =>
      rw [hda] at h
      simp only [ok_bind] at h
      cases hdb : dataAsFloat64 b with
      | err m => rw [hdb] at h; simp at h
      | panic m => rw [hdb] at h; simp at h
      | ok bData =>
        rw [hdb] at h
        simp only [ok_bind, GoOutcome.ok.injEq] at h
        subst h
        exact wf_mk (by simp [Buf.buflen])

theorem okWF_add (a b : NdArray) (ha : WF a) (hb : WF b) :
    ∀ r, Add a b = .ok r → WF r := by
  intro r h
  have hxa : a.data.buflen = ProdInt a.shape := ha
  have hxb : b.data.buflen = ProdInt b.shape := hb
  rw [Add] at h
  by_cases hse : shapesEqual a.shape b.shape
  · have heq : a.shape = b.shape := by simpa [shapesEqual] using hse
    have hpe : ProdInt a.shape = ProdInt b.shape := by rw [heq]
    rw [if_pos hse] at h
    rcases hda : a.data with xs | xs | xs <;> rcases hdb : b.data with ys | ys | ys <;>
        rw [hda] at hxa <;> rw [hdb] at hxb <;>
        simp only [Buf.buflen] at hxa hxb <;>
        simp [dataAsFloat64, hda, hdb] at h
    all_goals subst h
    all_goals exact wf_mk (by simp [Buf.buflen]; omega)
  · rw [if_neg hse] at h
    by_cases hpb : ProdInt b.shape = 1
    · rw [if_pos hpb] at h
      cases hg : discardErr (Get b [0]) with
      | err m => rw [hg] at h; simp at h
      | panic m => rw [hg] at h; simp at h
      | ok bVal =>
        rw [hg] at h
        simp only [ok_bind] at h
        rcases hda : a.data with xs | xs | xs <;> rcases hdb : b.data with ys | ys | ys <;>
            rw [hda] at hxa <;> simp only [Buf.buflen] at hxa <;>
            simp [dataAsFloat64, hda, hdb] at h
        all_goals subst h
        all_goals exact wf_mk (by simp [Buf.buflen]; omega)
    · rw [if_neg hpb] at h
      by_cases hpa : ProdInt a.shape = 1
      · rw [if_pos hpa] at h
        cases hg : discardErr (Get a [0]) with
        | err m => rw [hg] at h; simp at h
        | panic m => rw [hg] at h; simp at h
        | ok aVal =>
          rw [hg] at h
          simp only [ok_bind] at h
          rcases hda : a.data with xs | xs | xs <;> rcases hdb : b.data with ys | ys | ys <;>
              rw [hdb] at hxb <;> simp only [Buf.buflen] at hxb <;>
              simp [dataAsFloat64, hda, hdb] at h
          all_goals subst h
          all_goals exact wf_mk (by simp [Buf.buflen]; omega)
      · rw [if_neg hpa] at h
        exact applyOp_wf h

theorem okWF_subtract (a b : NdArray) (ha : WF a) (hb : WF b) :
    ∀ r, Subtract a b = .ok r → WF r := by
  intro r h
  have hxa : a.data.buflen = ProdInt a.shape := ha
  have hxb : b.data.buflen = ProdInt b.shape := hb
  rw [Subtract] at h
  by_cases hse : shapesEqual a.shape b.shape
  · have heq : a.shape = b.shape := by simpa [shapesEqual] using hse
    have hpe : ProdInt a.shape = ProdInt b.shape := by rw [heq]
    rw [if_pos hse] at h
    rcases hda : a.data with xs | xs | xs <;> rcases hdb : b.data with ys | ys | ys <;>
        rw [hda] at hxa <;> rw [hdb] at hxb <;>
        simp only [Buf.buflen] at hxa hxb <;>
        simp [dataAsFloat64, hda, hdb] at h
    all_goals subst h
    all_goals exact wf_mk (by simp [Buf.buflen]; omega)
  · rw [if_neg hse] at h
    by_cases hpb : ProdInt b.shape = 1
    · rw [if_pos hpb] at h
      cases hg : discardErr (Get b [0]) with
      | err m => rw [hg] at h; simp at h
      | panic m => rw [hg] at h; simp at h
      | ok bVal =>
        rw [hg] at h
        simp only [ok_bind] at h
        rcases hda : a.data with xs | xs | xs <;> rcases hdb : b.data with ys | ys | ys <;>
            rw [hda] at hxa <;> simp only [Buf.buflen] at hxa <;>
            simp [dataAsFloat64, hda, hdb] at h
        all_goals subst h
        all_goals exact wf_mk (by simp [Buf.buflen]; omega)
    · rw [if_neg hpb] at h
      by_cases hpa : ProdInt a.shape = 1
      · rw [if_pos hpa] at h
        cases hg : discardErr (Get a [0]) with
        | err m => rw [hg] at h; simp at h
        | panic m => rw [hg] at h; simp at h
        | ok aVal =>
          rw [hg] at h
          simp only [ok_bind] at h
          rcases hda : a.data with xs | xs | xs <;> rcases hdb : b.data with ys | ys | ys <;>
              rw [hdb] at hxb <;> simp only [Buf.buflen] at hxb <;>
              simp [dataAsFloat64, hda, hdb] at h
          all_goals subst h
          all_goals exact wf_mk (by simp [Buf.buflen]; omega)
      · rw [if_neg hpa] at h
        exact applyOp_wf h

theorem okWF_multiply (a b : NdArray) (ha : WF a) (hb : WF b) :
    ∀ r, Multiply a b = .ok r → WF r := by
  intro r h
  have hxa : a.data.buflen = ProdInt a.shape := ha
  have hxb : b.data.buflen = ProdInt b.shape := hb
  rw [Multiply] at h
  by_cases hse : shapesEqual a.shape b.shape
  · have heq : a.shape = b.shape := by simpa [shapesEqual] using hse
    have hpe : ProdInt a.shape = ProdInt b.shape := by rw [heq]
    rw [if_pos hse] at h
    rcases hda : a.data with xs | xs | xs <;> rcases hdb : b.data with ys | ys | ys <;>
        rw [hda] at hxa <;> rw [hdb] at hxb <;>
        simp only [Buf.buflen] at hxa hxb <;>
        simp [dataAsFloat64, hda, hdb] at h
    all_goals subst h
    all_goals exact wf_mk (by simp [Buf.buflen]; omega)
  · rw [if_neg hse] at h
    by_cases hpb : ProdInt b.shape = 1
    · rw [if_pos hpb] at h
      cases hg : discardErr (Get b [0]) with
      | err m => rw [hg] at h; simp at h
      | panic m => rw [hg] at h; simp at h
      | ok bVal =>
        rw [hg] at h
        simp only [ok_bind] at h
        rcases hda : a.data with xs | xs | xs <;> rcases hdb : b.data with ys | ys | ys <;>
            rw [hda] at hxa <;> simp only [Buf.buflen] at hxa <;>
            simp [dataAsFloat64, hda, hdb] at h
        all_goals subst h
        all_goals exact wf_mk (by simp [Buf.buflen]; omega)
    · rw [if_neg hpb] at h
      by_cases hpa : ProdInt a.shape = 1
      · rw [if_pos hpa] at h
        cases hg : discardErr (Get a [0]) with
        | err m => rw [hg] at h; simp at h
        | panic m => rw [hg] at h; simp at h
        | ok aVal =>
          rw [hg] at h
          simp only [ok_bind] at h
          rcases hda : a.data with xs | xs | xs <;> rcases hdb : b.data with ys | ys | ys <;>
              rw [hdb] at hxb <;> simp only [Buf.buflen] at hxb <;>
              simp [dataAsFloat64, hda, hdb] at h
          all_goals subst h
          all_goals exact wf_mk (by simp [Buf.buflen]; omega)
      · rw [if_neg hpa] at h
        exact applyOp_wf h

theorem okWF_divide (a b : NdArray) (ha : WF a) (hb : WF b) :
    ∀ r, Divide a b = .ok r → WF r := by
  intro r h
  have hxa : a.data.buflen = ProdInt a.shape := ha
  have hxb : b.data.buflen = ProdInt b.shape := hb
  rw [Divide] at h
  by_cases hse : shapesEqual a.shape b.shape
  · have heq : a.shape = b.shape := by simpa [shapesEqual] using hse
    have hpe : ProdInt a.shape = ProdInt b.shape := by rw [heq]
    rw [if_pos hse] at h
    rcases hda : a.data with xs | xs | xs <;> rcases hdb : b.data with ys | ys | ys <;>
        rw [hda] at hxa <;> rw [hdb] at hxb <;>
        simp only [Buf.buflen] at hxa hxb <;>
        simp [dataAsFloat64, hda, hdb] at h
    all_goals subst h
    all_goals exact wf_mk (by simp [Buf.buflen]; omega)
  · rw [if_neg hse] at h
    by_cases hpb : ProdInt b.shape = 1
    · rw [if_pos hpb] at h
      cases hg : discardErr (Get b [0]) with
      | err m => rw [hg] at h; simp at h
      | panic m => rw [hg] at h; simp at h
      | ok bVal =>
        rw [hg] at h
        simp only [ok_bind] at h
        rcases hda : a.data with xs | xs | xs <;> rcases hdb : b.data with ys | ys | ys <;>
            rw [hda] at hxa <;> simp only [Buf.buflen] at hxa <;>
            simp [dataAsFloat64, hda, hdb] at h
        all_goals subst h
        all_goals exact wf_mk (by simp [Buf.buflen]; omega)
    · rw [if_neg hpb] at h
      by_cases hpa : ProdInt a.shape = 1
      · rw [if_pos hpa] at h
        cases hg : discardErr (Get a [0]) with
        | err m => rw [hg] at h; simp at h
        | panic m => rw [hg] at h; simp at h
        | ok aVal =>
          rw [hg] at h
          simp only [ok_bind] at h
          rcases hda : a.data with xs | xs | xs <;> rcases hdb : b.data with ys | ys | ys <;>
              rw [hdb] at hxb <;> simp only [Buf.buflen] at hxb <;>
              simp [dataAsFloat64, hda, hdb] at h
          all_goals subst h
          all_goals exact wf_mk (by simp [Buf.buflen]; omega)
      · rw [if_neg hpa] at h
        exact applyOp_wf h

theorem inplace_wf_add (a b : NdArray) (ha : WF a) (hb : WF b) :
    WF (Add_Inplace a b).2 := by
  have hxa : a.data.buflen = ProdInt a.shape := ha
  have hxb : b.data.buflen = ProdInt b.shape := hb
  rw [Add_Inplace]
  by_cases hse : shapesEqual a.shape b.shape
  · have heq : a.shape = b.shape := by simpa [shapesEqual] using hse
    have hpe : ProdInt a.shape = ProdInt b.shape := by rw [heq]
    rw [if_neg (by simp [hse])]
    rcases hda : a.data with xs | xs | xs <;> rcases hdb : b.data with ys | ys | ys <;>
        rw [hda] at hxa <;> rw [hdb] at hxb <;>
        simp only [Buf.buflen] at hxa hxb <;>
        first
          | exact ha
          | exact wf_mk (by simp [Buf.buflen]; omega)
  · rw [if_pos (by simp [hse])]
    exact ha

theorem inplace_wf_subtract (a b : NdArray) (ha : WF a) (hb : WF b) :
    WF (Subtract_Inplace a b).2 := by
  have hxa : a.data.buflen = ProdInt a.shape := ha
  have hxb : b.data.buflen = ProdInt b.shape := hb
  rw [Subtract_Inplace]
  by_cases hse : shapesEqual a.shape b.shape
  · have heq : a.shape = b.shape := by simpa [shapesEqual] using hse
    have hpe : ProdInt a.shape = ProdInt b.shape := by rw [heq]
    rw [if_neg (by simp [hse])]
    rcases hda : a.data with xs | xs | xs <;> rcases hdb : b.data with ys | ys | ys <;>
        rw [hda] at hxa <;> rw [hdb] at hxb <;>
        simp only [Buf.buflen] at hxa hxb <;>
        first
          | exact ha
          | exact wf_mk (by simp [Buf.buflen]; omega)
  · rw [if_pos (by simp [hse])]
    exact ha

theorem inplace_wf_multiply (a b : NdArray) (ha : WF a) (hb : WF b) :
    WF (Multiply_Inplace a b).2 := by
  have hxa : a.data.buflen = ProdInt a.shape := ha
  have hxb : b.data.buflen = ProdInt b.shape := hb
  rw [Multiply_Inplace]
  by_cases hse : shapesEqual a.shape b.shape
  · have heq : a.shape = b.shape := by simpa [shapesEqual] using hse
    have hpe : ProdInt a.shape = ProdInt b.shape := by rw [heq]
    rw [if_neg (by simp [hse])]
    rcases hda : a.data with xs | xs | xs <;> rcases hdb : b.data with ys | ys | ys <;>
        rw [hda] at hxa <;> rw [hdb] at hxb <;>
        simp only [Buf.buflen] at hxa hxb <;>
        first
          | exact ha
          | exact wf_mk (by simp [Buf.buflen]; omega)
  · rw [if_pos (by simp [hse])]
    exact ha

theorem inplace_wf_divide (a b : NdArray) (ha : WF a) (hb : WF b) :
    WF (Divide_Inplace a b).2 := by
  have hxa : a.data.buflen = ProdInt a.shape := ha
  have hxb : b.data.buflen = ProdInt b.shape := hb
  rw [Divide_Inplace]
  by_cases hse : shapesEqual a.shape b.shape
  · have heq : a.shape = b.shape := by simpa [shapesEqual] using hse
    have hpe : ProdInt a.shape = ProdInt b.shape := by rw [heq]
    rw [if_neg (by simp [hse])]
    rcases hda : a.data with xs | xs | xs <;> rcases hdb : b.data with ys | ys | ys <;>
        rw [hda] at hxa <;> rw [hdb] at hxb <;>
        simp only [Buf.buflen] at hxa hxb <;>
        first
          | exact ha
          | exact wf_mk (by simp [Buf.buflen]; omega)
  · rw [if_pos (by simp [hse])]
    exact ha

theorem reshape_wf (a : NdArray) (ha : WF a) :
    ∀ s r, Reshape a s = some r → WF r := by
  intro s r h
  rw [Reshape] at h
  split at h
  · exact absurd h (by simp)
  · next hc =>
    injection h with h'
    subst h'
    push_neg at hc
    exact wf_mk (ha.trans hc.symm)

theorem insertAxis_wf (a : NdArray) :
    ∀ p r, InsertAxis a p = .ok r → WF r := by
  intro p r h
  simp only [InsertAxis] at h
  split at h <;> split at h <;>
    first
      | exact absurd h (by simp)
      | (split at h
         · next y hy =>
             injection h with h'
             subst h'
             exact newNdArray_wf _ _ _ hy
         · exact absurd h (by simp)
         · exact absurd h (by simp))

theorem hadamard_wf (a : NdArray) (ha : WF a) :
    ∀ (op : ℚ → ℚ) r, ApplyHadamardOp a op = .ok r → WF r := by
  intro op r h
  have hxa : a.data.buflen = ProdInt a.shape := ha
  rw [ApplyHadamardOp] at h
  rcases hda : a.data with xs | xs | xs <;>
      rw [hda] at hxa <;> simp only [Buf.buflen] at hxa <;>
      simp [hda] at h
  all_goals subst h
  all_goals exact wf_mk (by simp [Buf.buflen]; omega)

theorem abs_wf (a : NdArray) (ha : WF a) : ∀ r, a.Abs = .ok r → WF r := by
  intro r h
  have hxa : a.data.buflen = ProdInt a.shape := ha
  rw [NdArray.Abs] at h
  rcases hda : a.data with xs | xs | xs <;>
      rw [hda] at hxa <;> simp only [Buf.buflen] at hxa <;> simp [hda] at h
  all_goals subst h
  all_goals exact wf_mk (by simp [Buf.buflen]; omega)

theorem neg_wf (a : NdArray) (ha : WF a) : ∀ r, a.Neg = .ok r → WF r := by
  intro r h
  have hxa : a.data.buflen = ProdInt a.shape := ha
  rw [NdArray.Neg] at h
  rcases hda : a.data with xs | xs | xs <;>
      rw [hda] at hxa <;> simp only [Buf.buflen] at hxa <;> simp [hda] at h
  all_goals subst h
  all_goals exact wf_mk (by simp [Buf.buflen]; omega)

theorem round_wf (a : NdArray) (ha : WF a) : ∀ r, a.Round = .ok r → WF r := by
  intro r h
  have hxa : a.data.buflen = ProdInt a.shape := ha
  rw [NdArray.Round] at h
  rcases hda : a.data with xs | xs | xs <;>
      rw [hda] at hxa <;> simp only [Buf.buflen] at hxa <;> simp [hda] at h
  all_goals subst h
  all_goals exact wf_mk (by simp [Buf.buflen]; omega)

theorem floor_wf (a : NdArray) (ha : WF a) : ∀ r, a.Floor = .ok r → WF r := by
  intro r h
  have hxa : a.data.buflen = ProdInt a.shape := ha
  rw [NdArray.Floor] at h
  rcases hda : a.data with xs | xs | xs <;>
      rw [hda] at hxa <;> simp only [Buf.buflen] at hxa <;> simp [hda] at h
  all_goals subst h
  all_goals exact wf_mk (by simp [Buf.buflen]; omega)

theorem ceil_wf (a : NdArray) (ha : WF a) : ∀ r, a.Ceil = .ok r → WF r := by
  intro r h
  have hxa : a.data.buflen = ProdInt a.shape := ha
  rw [NdArray.Ceil] at h
  rcases hda : a.data with xs | xs | xs <;>
      rw [hda] at hxa <;> simp only [Buf.buflen] at hxa <;> simp [hda] at h
  all_goals subst h
  all_goals exact wf_mk (by simp [Buf.buflen]; omega)

theorem cumSum_wf (a : NdArray) (ha : WF a) : ∀ r, a.CumSum = .ok r → WF r := by
  intro r h
  have hxa : a.data.buflen = ProdInt a.shape := ha
  rw [NdArray.CumSum] at h
  rcases hda : a.data with xs | xs | xs <;>
      rw [hda] at hxa <;> simp only [Buf.buflen] at hxa <;> simp [hda] at h
  all_goals subst h
  all_goals exact wf_mk (by simp [Buf.buflen, cumScan_length]; omega)

theorem cumProd_wf (a : NdArray) (ha : WF a) : ∀ r, a.CumProd = .ok r → WF r := by
  intro r h
  have hxa : a.data.buflen = ProdInt a.shape := ha
  rw [NdArray.CumProd] at h
  rcases hda : a.data with xs | xs | xs <;>
      rw [hda] at hxa <;> simp only [Buf.buflen] at hxa <;> simp [hda] at h
  all_goals subst h
  all_goals exact wf_mk (by simp [Buf.buflen, cumScan_length]; omega)

theorem addScalar_inplace_wf (a : NdArray) (ha : WF a) (c : ℚ) :
    WF (AddScalar_Inplace a c).2 := by
  have hxa : a.data.buflen = ProdInt a.shape := ha
  rw [AddScalar_Inplace]
  rcases hda : a.data with xs | xs | xs <;>
      rw [hda] at hxa <;> simp only [Buf.buflen] at hxa <;>
      first
        | exact ha
        | exact wf_mk (by simp [Buf.buflen]; omega)

theorem subScalar_inplace_wf (a : NdArray) (ha : WF a) (c : ℚ) :
    WF (SubScalar_Inplace a c).2 := by
  have hxa : a.data.buflen = ProdInt a.shape := ha
  rw [SubScalar_Inplace]
  rcases hda : a.data with xs | xs | xs <;>
      rw [hda] at hxa <;> simp only [Buf.buflen] at hxa <;>
      first
        | exact ha
        | exact wf_mk (by simp [Buf.buflen]; omega)

theorem mulScalar_inplace_wf (a : NdArray) (ha : WF a) (c : ℚ) :
    WF (MulScalar_Inplace a c).2 := by
  have hxa : a.data.buflen = ProdInt a.shape := ha
  rw [MulScalar_Inplace]
  rcases hda : a.data with xs | xs | xs <;>
      rw [hda] at hxa <;> simp only [Buf.buflen] at hxa <;>
      first
        | exact ha
        | exact wf_mk (by simp [Buf.buflen]; omega)

theorem divScalar_inplace_wf (a : NdArray) (ha : WF a) (c : ℚ) :
    WF (DivScalar_Inplace a c).2 := by
  have hxa : a.data.buflen = ProdInt a.shape := ha
  rw [DivScalar_Inplace]
  rcases hda : a.data with xs | xs | xs <;>
      rw [hda] at hxa <;> simp only [Buf.buflen] at hxa <;>
      first
        | exact ha
        | exact wf_mk (by simp [Buf.buflen]; omega)

theorem zeros_wf (s : List Nat) : WF (Zeros s) := by
  simp [Zeros, WF, Buf.buflen]

/-- C9: construction validates the length invariant
`len(buffer) == product(shape)` — `NewNdArray` fails on any mismatch and
every array it returns satisfies the invariant — and, for receivers
satisfying the invariant, every embedded operation preserves it on its
results and on the receiver's post-state: the four arithmetic operations,
`Reshape`, `InsertAxis`, `ApplyHadamardOp` (any custom function), the unary
operations, the four binary in-place operations and the four scalar
in-place operations, plus the `Zeros` generator. -/
theorem length_invariant_preserved (a b : NdArray) (ha : WF a) (hb : WF b) :
    (∀ (s : List Nat) (d : Buf), d.buflen ≠ ProdInt s → NewNdArray s d = .err dataLenMsg)
      ∧ (∀ (s : List Nat) (d : Buf) (r : NdArray), NewNdArray s d = .ok r → WF r)
      ∧ (∀ r, Add a b = .ok r → WF r)
      ∧ (∀ r, Subtract a b = .ok r → WF r)
      ∧ (∀ r, Multiply a b = .ok r → WF r)
      ∧ (∀ r, Divide a b = .ok r → WF r)
      ∧ (∀ s r, Reshape a s = some r → WF r)
      ∧ (∀ p r, InsertAxis a p = .ok r → WF r)
      ∧ (∀ (op : ℚ → ℚ) r, ApplyHadamardOp a op = .ok r → WF r)
      ∧ (∀ r, a.Abs = .ok r → WF r)
      ∧ (∀ r, a.Neg = .ok r → WF r)
      ∧ (∀ r, a.Round = .ok r → WF r)
      ∧ (∀ r, a.Floor = .ok r → WF r)
      ∧ (∀ r, a.Ceil = .ok r → WF r)
      ∧ (∀ r, a.CumSum = .ok r → WF r)
      ∧ (∀ r, a.CumProd = .ok r → WF r)
      ∧ WF (Add_Inplace a b).2 ∧ WF (Subtract_Inplace a b).2
      ∧ WF (Multiply_Inplace a b).2 ∧ WF (Divide_Inplace a b).2
      ∧ (∀ c, WF (AddScalar_Inplace a c).2) ∧ (∀ c, WF (SubScalar_Inplace a c).2)
      ∧ (∀ c, WF (MulScalar_Inplace a c).2) ∧ (∀ c, WF (DivScalar_Inplace a c).2)
      ∧ (∀ s, WF (Zeros s)) :=
  ⟨fun s d hmm => by rw [NewNdArray, if_pos (fun hc => hmm hc.symm)],
    newNdArray_wf,
    okWF_add a b ha hb, okWF_subtract a b ha hb,
    okWF_multiply a b ha hb, okWF_divide a b ha hb,
    reshape_wf a ha, insertAxis_wf a, hadamard_wf a ha,
    abs_wf a ha, neg_wf a ha, round_wf a ha, floor_wf a ha, ceil_wf a ha,
    cumSum_wf a ha, cumProd_wf a ha,
    inplace_wf_add a b ha hb, inplace_wf_subtract a b ha hb,
    inplace_wf_multiply a b ha hb, inplace_wf_divide a b ha hb,
    addScalar_inplace_wf a ha, subScalar_inplace_wf a ha,
    mulScalar_inplace_wf a ha, divScalar_inplace_wf a ha,
    zeros_wf⟩

/-- Witness for `length_invariant_preserved` at the well-formed arrays
`⟨[2], [1,2]⟩` and `⟨[2], [3,4]⟩`. -/
theorem length_invariant_preserved_witness :
    WF ⟨[2], .f64 [1, 2]⟩ ∧ WF ⟨[2], .f64 [3, 4]⟩
      ∧ ((∀ (s : List Nat) (d : Buf), d.buflen ≠ ProdInt s →
            NewNdArray s d = .err dataLenMsg)
        ∧ (∀ (s : List Nat) (d : Buf) (r : NdArray), NewNdArray s d = .ok r → WF r)
        ∧ (∀ r, Add ⟨[2], .f64 [1, 2]⟩ ⟨[2], .f64 [3, 4]⟩ = .ok r → WF r)
        ∧ (∀ r, Subtract ⟨[2], .f64 [1, 2]⟩ ⟨[2], .f64 [3, 4]⟩ = .ok r → WF r)
        ∧ (∀ r, Multiply ⟨[2], .f64 [1, 2]⟩ ⟨[2], .f64 [3, 4]⟩ = .ok r → WF r)
        ∧ (∀ r, Divide ⟨[2], .f64 [1, 2]⟩ ⟨[2], .f64 [3, 4]⟩ = .ok r → WF r)
        ∧ (∀ s r, Reshape ⟨[2], .f64 [1, 2]⟩ s = some r → WF r)
        ∧ (∀ p r, InsertAxis ⟨[2], .f64 [1, 2]⟩ p = .ok r → WF r)
        ∧ (∀ (op : ℚ → ℚ) r, ApplyHadamardOp ⟨[2], .f64 [1, 2]⟩ op = .ok r → WF r)
        ∧ (∀ r, (NdArray.mk [2] (.f64 [1, 2])).Abs = .ok r → WF r)
        ∧ (∀ r, (NdArray.mk [2] (.f64 [1, 2])).Neg = .ok r → WF r)
        ∧ (∀ r, (NdArray.mk [2] (.f64 [1, 2])).Round = .ok r → WF r)
        ∧ (∀ r, (NdArray.mk [2] (.f64 [1, 2])).Floor = .ok r → WF r)
        ∧ (∀ r, (NdArray.mk [2] (.f64 [1, 2])).Ceil = .ok r → WF r)
        ∧ (∀ r, (NdArray.mk [2] (.f64 [1, 2])).CumSum = .ok r → WF r)
        ∧ (∀ r, (NdArray.mk [2] (.f64 [1, 2])).CumProd = .ok r → WF r)
        ∧ WF (Add_Inplace ⟨[2], .f64 [1, 2]⟩ ⟨[2], .f64 [3, 4]⟩).2
        ∧ WF (Subtract_Inplace ⟨[2], .f64 [1, 2]⟩ ⟨[2], .f64 [3, 4]⟩).2
        ∧ WF (Multiply_Inplace ⟨[2], .f64 [1, 2]⟩ ⟨[2], .f64 [3, 4]⟩).2
        ∧ WF (Divide_Inplace ⟨[2], .f64 [1, 2]⟩ ⟨[2], .f64 [3, 4]⟩).2
        ∧ (∀ c, WF (AddScalar_Inplace ⟨[2], .f64 [1, 2]⟩ c).2)
        ∧ (∀ c, WF (SubScalar_Inplace ⟨[2], .f64 [1, 2]⟩ c).2)
        ∧ (∀ c, WF (MulScalar_Inplace ⟨[2], .f64 [1, 2]⟩ c).2)
        ∧ (∀ c, WF (DivScalar_Inplace ⟨[2], .f64 [1, 2]⟩ c).2)
        ∧ (∀ s, WF (Zeros s))) :=
  ⟨by decide, by decide,
    length_invariant_preserved ⟨[2], .f64 [1, 2]⟩ ⟨[2], .f64 [3, 4]⟩
      (by decide) (by decide)⟩

end Ndvek
